import Mathlib

/-! Formal model of `torch_landscape/directions.py`.

The Python source computes low-dimensional directions in a neural network's
parameter space (random, PCA-based, SVD-based and learnable-autoencoder
variants).  This file gives a shallow embedding of the data model and of the
operations relevant to the verified properties:

* tensors in a parameter set are modelled as a shape (list of dimension
  sizes) together with flat rational data;
* `torch` linear-algebra calls whose numeric output is produced by an
  external iterative solver (`lobpcg`, `eigh`, `svd_lowrank`) are modelled
  as function parameters, while all surrounding glue (stacking, centering,
  covariance, sorting, selection, reshaping) is embedded directly;
* the autoencoder training loop is embedded as explicit state passing over
  the per-epoch loss sequence, with IEEE-style comparison semantics
  (`nan`/`inf`) for the loss values, since the loop's control flow only
  observes losses through `<` comparisons;
* `raise` statements become `Except` errors.
-/

/-- Errors raised by the direction builders: `raise ValueError(...)`,
the basis-count assertion, and the failing `load_state_dict` call. -/
inductive DirErr where
  | emptyIntermediateParameters
  | emptyIntermediateResults
  | basisCountMismatch
  | loadNoneStateDict
  deriving DecidableEq, Repr

/-- Compute devices, as far as the modelled code distinguishes them. -/
inductive Device where
  | cpu
  | cuda
  deriving DecidableEq, Repr

/-- A PyTorch tensor inside a parameter set: a shape and flat data
(row-major).  The well-formedness invariant `data.length = shape.prod` is
carried as a hypothesis where a claim needs it. -/
structure PTensor where
  shape : List ℕ
  data : List ℚ
  deriving DecidableEq, Repr

/-- `numel` of a tensor: the product of its dimension sizes. -/
def PTensor.numel (p : PTensor) : ℕ := p.shape.prod

/-- `torch.nn.utils.parameters_to_vector`: flatten each parameter tensor and
concatenate in order. -/
def parameters_to_vector (ps : List PTensor) : List ℚ :=
  (ps.map PTensor.data).flatten

/-- `torch.nn.utils.vector_to_parameters`: refill each parameter of the
template from consecutive chunks of the flat vector (chunk sizes given by
each parameter's `numel`), keeping the template shapes. -/
def vector_to_parameters : List ℚ → List PTensor → List PTensor
  | _, [] => []
  | v, p :: rest =>
    ⟨p.shape, v.take p.numel⟩ :: vector_to_parameters (v.drop p.numel) rest

/-- `torch_landscape.utils.clone_parameters`: deep copy of a parameter list
(identity on the mathematical value). -/
def clone_parameters (ps : List PTensor) : List PTensor := ps

/-! ### PcaDirections.calculate_covariance_matrix

The source (`directions.py`, lines 202-211):

    covariance_matrix = cov(stack(samples, dim=1))

`samples` is a list of `N` flat vectors of length `F`.
`torch.stack(samples, dim=1)` makes each sample a column, producing an
`F x N` matrix; `torch.cov` treats each row as a variable and each column
as an observation and returns the `F x F` covariance matrix. -/

/-- `torch.stack(samples, dim=1)`: row `i` of the result collects entry `i`
of every sample (so the result is `F x N` for `N` samples of length `F`).
`torch.stack` requires equal shapes; on ragged input this model pads with
`0` via `getD`, and every theorem carries a uniform-length hypothesis. -/
def stack_dim1 (samples : List (List ℚ)) : List (List ℚ) :=
  match samples with
  | [] => []
  | s :: _ => (List.range s.length).map (fun i => samples.map (fun r => r.getD i 0))

/-- Mean of one row (one variable) over its observations. -/
def rowMean (r : List ℚ) : ℚ := r.sum / r.length

/-- Dot product of two rows. -/
def dotL (a b : List ℚ) : ℚ := (List.zipWith (fun x y => x * y) a b).sum

/-- `torch.cov m` for a 2-D matrix `m` given as a list of rows: center each
row (variable) at its mean, then return `C * Cᵀ / (n - 1)` where `n` is the
number of observations (columns).  (For `n = 1` torch produces `nan` by a
division by zero; rational division by zero yields `0` here — no claim
depends on that case.) -/
def covMatrix (m : List (List ℚ)) : List (List ℚ) :=
  let n : ℚ := ((m.headD []).length : ℚ)
  let centered := m.map (fun r => r.map (fun x => x - rowMean r))
  centered.map (fun r => centered.map (fun r2 => dotL r r2 / (n - 1)))

/-- `PcaDirections.calculate_covariance_matrix` (lines 202-211):
`cov(stack(samples, dim=1))`. -/
def PcaDirections_calculate_covariance_matrix (samples : List (List ℚ)) : List (List ℚ) :=
  covMatrix (stack_dim1 samples)

/-! ### PcaDirections._calculate_eigenpairs and the top-2 selection

The numeric eigensolvers `torch.lobpcg` and `torch.linalg.eigh` are modelled
as function parameters; the branch between them and the subsequent
descending sort / selection (lines 236-264 of the source) are embedded
directly. -/

/-- Result of an eigensolver call: `values` and, for each `values[i]`, the
eigenvector column `vectors[i]` (`eigen_vectors[:, i]` in the source). -/
structure EigenPairs where
  values : List ℚ
  vectors : List (List ℚ)
  deriving DecidableEq, Repr

/-- `PcaDirections._calculate_eigenpairs` (lines 250-264): use `lobpcg`
(`largest=True, k=2`) when the matrix has more than `3 * 2` rows, else
`torch.linalg.eigh`. -/
def PcaDirections_calculate_eigenpairs
    (lobpcgFn eighFn : List (List ℚ) → EigenPairs)
    (covariance_matrix : List (List ℚ)) : EigenPairs :=
  if 3 * 2 < covariance_matrix.length then lobpcgFn covariance_matrix
  else eighFn covariance_matrix

/-- Comparison used by `sort(eigen_values, descending=True)` on
(index, value) pairs. -/
def descVal : (ℕ × ℚ) → (ℕ × ℚ) → Prop := fun a b => b.2 ≤ a.2

instance : DecidableRel descVal := fun a b => inferInstanceAs (Decidable (b.2 ≤ a.2))

instance : IsTotal (ℕ × ℚ) descVal := ⟨fun a b => le_total b.2 a.2⟩

instance : IsTrans (ℕ × ℚ) descVal := ⟨fun _ _ _ hab hbc => le_trans hbc hab⟩

/-- Lines 238-246 of the source:
`_, indices = sort(eigen_values, descending=True)` followed by
`b1 = eigen_vectors[:, indices[0]]` and `b2 = eigen_vectors[:, indices[1]]`.
The sort is modelled as a descending insertion sort on (index, value)
pairs; only the index permutation is consumed. -/
def PcaDirections_select_top2 (ep : EigenPairs) : List ℚ × List ℚ :=
  let sortedPairs := List.insertionSort descVal ep.values.enum
  let i0 := (sortedPairs.getD 0 (0, 0)).1
  let i1 := (sortedPairs.getD 1 (0, 0)).1
  (ep.vectors.getD i0 [], ep.vectors.getD i1 [])

/-- Matrix-vector product for a matrix given as a list of rows. -/
def matVec (m : List (List ℚ)) (v : List ℚ) : List ℚ :=
  m.map (fun row => dotL row v)

/-- `v` is an eigenvector of `m` for eigenvalue `mu`. -/
def isEigenPair (m : List (List ℚ)) (v : List ℚ) (mu : ℚ) : Prop :=
  (∃ x ∈ v, x ≠ 0) ∧ matVec m v = v.map (fun x => mu * x)

instance (m : List (List ℚ)) (v : List ℚ) (mu : ℚ) : Decidable (isEigenPair m v mu) :=
  inferInstanceAs (Decidable ((∃ x ∈ v, x ≠ 0) ∧ matVec m v = v.map (fun x => mu * x)))

/-- Concrete 2 x 2 covariance matrix used to witness the eigenpair claim. -/
def covW : List (List ℚ) := [[2, 0], [0, 1]]

/-- Concrete stand-in for `torch.linalg.eigh` on `covW`: returns both
eigenpairs (ascending values, as `eigh` does). -/
def eighW : List (List ℚ) → EigenPairs := fun _ => ⟨[1, 2], [[0, 1], [1, 0]]⟩

/-- Concrete stand-in for `torch.lobpcg` (unused on a 2 x 2 matrix). -/
def lobpcgW : List (List ℚ) → EigenPairs := fun _ => ⟨[], []⟩

/-- The eigenpairs the modelled branch produces on `covW`. -/
def epW : EigenPairs := PcaDirections_calculate_eigenpairs lobpcgW eighW covW

/-! ### normalize_direction (lines 32-47)

Tensor entries here are real numbers, since the computed scaling factor
involves square roots. -/

/-- The additive epsilon `1e-10` guarding the division in
`normalize_direction`. -/
noncomputable def normEps : ℝ := 1 / 10 ^ 10

/-- Euclidean (`p=2`) norm of a flat slice, as `Tensor.norm` computes it. -/
noncomputable def l2norm (xs : List ℝ) : ℝ := Real.sqrt (xs.map (fun x => x * x)).sum

/-- A 1-D or 2-D PyTorch tensor over the reals (the dimensionalities the
normalization claims exercise). -/
inductive PyTensor where
  | t1 (xs : List ℝ)
  | t2 (xss : List (List ℝ))

/-- `tensor.dim()`. -/
def PyTensor.dim : PyTensor → ℕ
  | .t1 _ => 1
  | .t2 _ => 2

/-- `normalize_direction(direction, parameters)` (lines 32-47): with
`norm_dimensions = 1 if parameters.dim() > 1 else 0`, compute
`direction.norm(dim=norm_dimensions, keepdim=True)` and the same for the
parameters, then scale the direction by
`norm_parameters / (norm_direction + 1e-10)` — a scalar for 1-D tensors, a
per-row factor (broadcast over columns) for 2-D tensors.  Mismatched
constructors cannot occur for identically-shaped inputs (torch would
raise); the model returns the direction unchanged there. -/
noncomputable def normalize_direction : PyTensor → PyTensor → PyTensor
  | .t1 ds, .t1 ps =>
    .t1 (ds.map (fun x => x * (l2norm ps / (l2norm ds + normEps))))
  | .t2 dss, .t2 pss =>
    .t2 (List.zipWith
      (fun dr pr => dr.map (fun x => x * (l2norm pr / (l2norm dr + normEps)))) dss pss)
  | d, _ => d

/-! ### The autoencoder training loop
(`LearnableDirections.create_learnable_directions`, lines 413-438, and
`LearnableNonlinearDirections.create_learnable_directions`, lines 617-642;
the two loops are textually identical).

The numeric content of an epoch (forward pass, MSE loss, Adam step) is
abstracted into two sequences: `losses e`, the value of `loss.item()` at
epoch `e`, and `states e`, the `deepcopy(model.state_dict())` that would be
captured at epoch `e`.  The loop only observes losses through IEEE `<`
comparisons, modelled by `fvLt`. -/

/-- A float loss value as the loop's comparisons see it: finite, `inf`
(the initial best), or `nan`. -/
inductive FloatVal where
  | fin (q : ℚ)
  | inf
  | nan
  deriving DecidableEq, Repr

/-- IEEE `<` on the modelled float values: every comparison against `nan`
is false; `fin _ < inf` is true; `inf < _` is false. -/
def fvLt : FloatVal → FloatVal → Bool
  | .fin a, .fin b => decide (a < b)
  | .fin _, .inf => true
  | .fin _, .nan => false
  | .inf, _ => false
  | .nan, _ => false

/-- Loop state: `best_epoch, best_loss, best_model_state_dict`. -/
structure TrainState (σ : Type) where
  bestEpoch : ℕ
  bestLoss : FloatVal
  bestState : Option σ
  deriving DecidableEq

/-- One epoch's best-checkpoint update (lines 427-430 / 631-634):
`if epoch_loss < best_loss: best_epoch, best_loss, best_model_state_dict =
epoch, epoch_loss, deepcopy(model.state_dict())`. -/
def trainStep {σ : Type} (losses : ℕ → FloatVal) (states : ℕ → σ) (e : ℕ)
    (s : TrainState σ) : TrainState σ :=
  if fvLt (losses e) s.bestLoss then ⟨e, losses e, some (states e)⟩ else s

/-- The epoch loop with early stopping (lines 416-435 / 620-639):
`for epoch in range(training_epochs)` with
`if epoch - best_epoch >= early_stopping_epochs: break` placed after the
best-checkpoint update.  Returns the next epoch index after the last
executed epoch together with the final state; `e` is the current epoch and
`r` the count of remaining epochs. -/
def trainEpochs {σ : Type} (losses : ℕ → FloatVal) (states : ℕ → σ)
    (patience : ℕ) : ℕ → ℕ → TrainState σ → ℕ × TrainState σ
  | e, 0, s => (e, s)
  | e, r + 1, s =>
    let s2 := trainStep losses states e s
    if patience ≤ e - s2.bestEpoch then (e + 1, s2)
    else trainEpochs losses states patience (e + 1) r s2

/-- `best_epoch, best_loss, best_model_state_dict = 0, float("inf"), None`
followed by the full epoch loop (lines 414-435 / 618-639). -/
def trainLoop {σ : Type} (losses : ℕ → FloatVal) (states : ℕ → σ)
    (patience epochs : ℕ) : ℕ × TrainState σ :=
  trainEpochs losses states patience 0 epochs ⟨0, .inf, none⟩

/-- The training loop of `LearnableDirections.create_learnable_directions`
(lines 413-438). -/
def LearnableDirections_trainLoop {σ : Type} : (ℕ → FloatVal) → (ℕ → σ) →
    ℕ → ℕ → ℕ × TrainState σ := trainLoop

/-- The training loop of
`LearnableNonlinearDirections.create_learnable_directions`
(lines 617-642). -/
def LearnableNonlinearDirections_trainLoop {σ : Type} : (ℕ → FloatVal) → (ℕ → σ) →
    ℕ → ℕ → ℕ × TrainState σ := trainLoop

/-- `model.load_state_dict(best_model_state_dict)` (line 437 / 641):
`torch` fails when handed `None` instead of a state dict. -/
def load_state_dict {σ : Type} : Option σ → Except DirErr σ
  | none => .error .loadNoneStateDict
  | some s => .ok s

/-- Loop followed by the final best-checkpoint reload, linear variant
(lines 413-438). -/
def LearnableDirections_trainResult {σ : Type} (losses : ℕ → FloatVal)
    (states : ℕ → σ) (patience epochs : ℕ) : Except DirErr σ :=
  load_state_dict (LearnableDirections_trainLoop losses states patience epochs).2.bestState

/-- Loop followed by the final best-checkpoint reload, nonlinear variant
(lines 617-642). -/
def LearnableNonlinearDirections_trainResult {σ : Type} (losses : ℕ → FloatVal)
    (states : ℕ → σ) (patience epochs : ℕ) : Except DirErr σ :=
  load_state_dict
    (LearnableNonlinearDirections_trainLoop losses states patience epochs).2.bestState

/-- Loop state after processing epochs `0, ..., k - 1`. -/
def stateUpTo {σ : Type} (losses : ℕ → FloatVal) (states : ℕ → σ) : ℕ → TrainState σ
  | 0 => ⟨0, .inf, none⟩
  | k + 1 => trainStep losses states k (stateUpTo losses states k)

/-- Index of the first minimal loss among epochs `0, ..., k` (the loop's
`best_epoch` after epoch `k`, for finite losses). -/
def bestIdx (losses : ℕ → ℚ) : ℕ → ℕ
  | 0 => 0
  | k + 1 => if losses (k + 1) < losses (bestIdx losses k) then k + 1 else bestIdx losses k

/-! ### Pre-training validation order in the learnable builders -/

/-- Observable phases of `create_learnable_directions`, in execution
order. -/
inductive Ev where
  | trajComputation
  | modelConstruction
  | training
  deriving DecidableEq, Repr

/-- Statement-order model of
`LearnableDirections.create_learnable_directions` (lines 336-438) up to the
training loop: the empty check (lines 358-359) comes first, but the
basis-count assertion lives in `LearnableAutoEncoder.__init__` (line 364),
which only runs at `model = LearnableAutoEncoder(...)` (line 409) — after
the trajectory has been flattened, centered and stacked into the dataset
(lines 400-407).  The trace records the tensor work performed before the
outcome. -/
def LearnableDirections_run (trajLen basisLen numLayers : ℕ) :
    List Ev × Option DirErr :=
  if trajLen = 0 then ([], some DirErr.emptyIntermediateResults)
  else
    if ¬((basisLen : ℤ) = (numLayers : ℤ) - 1) then
      ([Ev.trajComputation], some DirErr.basisCountMismatch)
    else
      ([Ev.trajComputation, Ev.modelConstruction, Ev.training], none)

/-- Statement-order model of
`LearnableNonlinearDirections.create_learnable_directions`
(lines 536-642): the empty check (lines 558-559) and the basis-count check
(lines 560-561) both precede any tensor computation. -/
def LearnableNonlinearDirections_run (trajLen basisLen numLayers : ℕ) :
    List Ev × Option DirErr :=
  if trajLen = 0 then ([], some DirErr.emptyIntermediateResults)
  else if ¬((basisLen : ℤ) = (numLayers : ℤ) - 1) then
    ([], some DirErr.basisCountMismatch)
  else
    ([Ev.trajComputation, Ev.modelConstruction, Ev.training], none)

/-! ### SvdDirections (lines 646-728) -/

/-- Floating dtypes the modelled code distinguishes. -/
inductive DType where
  | float32
  | float64
  deriving DecidableEq, Repr

/-- A 2-D tensor with its dtype. -/
structure TMat where
  dtype : DType
  rows : List (List ℚ)
  deriving DecidableEq, Repr

/-- `torch.stack(x)` (dim 0): the vectors become the rows, keeping the
input dtype. -/
def stackRows (dt : DType) (rows : List (List ℚ)) : TMat := ⟨dt, rows⟩

/-- `tensor.to(dtype=...)`: dtype cast (values unchanged in this exact
model; only the dtype tag is observable here). -/
def TMat.to (m : TMat) (dt : DType) : TMat := ⟨dt, m.rows⟩

/-- Result of `torch.svd_lowrank(dataset, q=2)`: `V` is an `F x 2` matrix
whose columns are the top right-singular vectors (the external solver's
contract). -/
structure SvdResult where
  U : List (List ℚ)
  S : List ℚ
  V : List (List ℚ)
  deriving DecidableEq, Repr

/-- `m[:, j]`: column `j` of a matrix given as rows. -/
def column (m : List (List ℚ)) (j : ℕ) : List ℚ := m.map (fun r => r.getD j 0)

/-- Elementwise subtraction of flat vectors. -/
def listSub (a b : List ℚ) : List ℚ := List.zipWith (fun x y => x - y) a b

/-- `SvdDirections.create_learnable_directions` (lines 695-728): check the
trajectory is non-empty, flatten and center every snapshot against the
optimized-parameter vector, stack the centered vectors as rows and cast to
`float32`, call `svd_lowrank(dataset, q=2)` and return the first two
columns of `V`.  `dt` is the dtype of the incoming tensors (the cast to
`float32` applies regardless); `svdLowrankFn` is the external randomized
SVD. -/
def SvdDirections_create_learnable_directions
    (svdLowrankFn : TMat → SvdResult) (dt : DType)
    (intermediate_results : List (List PTensor)) (parameters : List PTensor) :
    Except DirErr (List ℚ × List ℚ) :=
  if intermediate_results.length = 0 then .error .emptyIntermediateResults
  else
    let optimized_parameters_vector := parameters_to_vector parameters
    let x := intermediate_results.map
      (fun result => listSub (parameters_to_vector result) optimized_parameters_vector)
    let dataset := (stackRows dt x).to DType.float32
    let res := svdLowrankFn dataset
    .ok (column res.V 0, column res.V 1)

/-- `SvdDirections.calculate_directions` (lines 679-693): run the SVD
pipeline, then write each direction vector into a clone of the optimized
parameters via `vector_to_parameters`. -/
def SvdDirections_calculate_directions
    (svdLowrankFn : TMat → SvdResult) (dt : DType)
    (optimized : List PTensor) (inter : List (List PTensor)) :
    Except DirErr (List PTensor × List PTensor) :=
  match SvdDirections_create_learnable_directions svdLowrankFn dt inter optimized with
  | .error e => .error e
  | .ok (b1, b2) =>
    .ok (vector_to_parameters b1 (clone_parameters optimized),
      vector_to_parameters b2 (clone_parameters optimized))

/-- Concrete optimized parameters for the SVD pipeline witness: one
parameter tensor of shape `[2]`. -/
def optW : List PTensor := [⟨[2], [0, 0]⟩]

/-- Concrete one-snapshot trajectory for the SVD pipeline witness. -/
def interW : List (List PTensor) := [[⟨[2], [1, 2]⟩]]

/-- Concrete stand-in for `torch.svd_lowrank` in the witness. -/
def svdW : TMat → SvdResult := fun _ => ⟨[], [], [[1, 0], [0, 1]]⟩

/-! ### Builder constructors (`__init__`, lines 162-185, 274-312, 474-512,
653-677)

All four trajectory-consuming builders share the same constructor pattern:
raise on an empty trajectory, then strip loss values when the trajectory
was supplied as (parameters, loss) tuples, then store the configuration. -/

/-- The `intermediate_parameters` argument: either a plain list of
parameter sets or a list of (parameter set, loss) pairs
(`Union[List[List[Tensor]], List[Tuple[List[Tensor], float]]]`). -/
inductive TrajInput where
  | plain (l : List (List PTensor))
  | withLoss (l : List (List PTensor × ℚ))
  deriving DecidableEq

/-- `len(intermediate_parameters)`. -/
def TrajInput.len : TrajInput → ℕ
  | .plain l => l.length
  | .withLoss l => l.length

/-- `if isinstance(intermediate_parameters[0], tuple):
[parameters for parameters, loss in intermediate_parameters]`
(lines 181-184 and the identical blocks in the other constructors). -/
def TrajInput.strip : TrajInput → List (List PTensor)
  | .plain l => l
  | .withLoss l => l.map Prod.fst

/-- State stored by `PcaDirections.__init__`. -/
structure PcaState where
  optimized : List PTensor
  inter : List (List PTensor)
  covDevice : Device
  deriving DecidableEq

/-- `PcaDirections.__init__` (lines 162-185). -/
def PcaDirections_init (optimized : List PTensor) (inter : TrajInput)
    (covariance_device : Device) : Except DirErr PcaState :=
  if inter.len = 0 then .error .emptyIntermediateParameters
  else .ok ⟨optimized, inter.strip, covariance_device⟩

/-- State stored by `SvdDirections.__init__`. -/
structure SvdState where
  optimized : List PTensor
  inter : List (List PTensor)
  deriving DecidableEq

/-- `SvdDirections.__init__` (lines 653-677). -/
def SvdDirections_init (optimized : List PTensor) (inter : TrajInput) :
    Except DirErr SvdState :=
  if inter.len = 0 then .error .emptyIntermediateParameters
  else .ok ⟨optimized, inter.strip⟩

/-- State stored by the two learnable-direction constructors. -/
structure LearnableState where
  optimized : List PTensor
  inter : List (List PTensor)
  dev : Device
  number_of_layers : ℕ
  autoencoder_lr : ℚ
  training_epochs : ℕ
  early_stopping_epochs : ℕ
  intermediate_basis_count : List ℕ
  activation : ℚ → ℚ

/-- `LearnableDirections.__init__` (lines 274-312). -/
def LearnableDirections_init (optimized : List PTensor) (inter : TrajInput)
    (dev : Device) (number_of_layers : ℕ) (autoencoder_lr : ℚ)
    (training_epochs early_stopping_epochs : ℕ)
    (intermediate_basis_count : List ℕ) (activation : ℚ → ℚ) :
    Except DirErr LearnableState :=
  if inter.len = 0 then .error .emptyIntermediateParameters
  else .ok ⟨optimized, inter.strip, dev, number_of_layers, autoencoder_lr,
    training_epochs, early_stopping_epochs, intermediate_basis_count, activation⟩

/-- `LearnableNonlinearDirections.__init__` (lines 474-512; textually the
same constructor body as the linear variant). -/
def LearnableNonlinearDirections_init (optimized : List PTensor) (inter : TrajInput)
    (dev : Device) (number_of_layers : ℕ) (autoencoder_lr : ℚ)
    (training_epochs early_stopping_epochs : ℕ)
    (intermediate_basis_count : List ℕ) (activation : ℚ → ℚ) :
    Except DirErr LearnableState :=
  if inter.len = 0 then .error .emptyIntermediateParameters
  else .ok ⟨optimized, inter.strip, dev, number_of_layers, autoencoder_lr,
    training_epochs, early_stopping_epochs, intermediate_basis_count, activation⟩

/-- `SvdDirections.calculate_directions` as a function of the stored
constructor state. -/
def SvdDirections_calculate_directions_state
    (svdLowrankFn : TMat → SvdResult) (dt : DType) (st : SvdState) :
    Except DirErr (List PTensor × List PTensor) :=
  SvdDirections_calculate_directions svdLowrankFn dt st.optimized st.inter

/-- Concrete one-snapshot trajectory (parameter halves) for the C9
witness. -/
def psW : List (List PTensor) := [[⟨[1], [5]⟩]]

/-! ## Theorems -/

/-! Dimension lemmas for the covariance computation. -/

theorem stack_dim1_length (s : List ℚ) (rest : List (List ℚ)) :
    (stack_dim1 (s :: rest)).length = s.length := by
  simp [stack_dim1]

theorem stack_dim1_row_length (samples : List (List ℚ)) (row : List ℚ)
    (h : row ∈ stack_dim1 samples) : row.length = samples.length := by
  cases samples with
  | nil => simp [stack_dim1] at h
  | cons s rest =>
    simp only [stack_dim1, List.mem_map, List.mem_range] at h
    obtain ⟨i, _, hrow⟩ := h
    simp [← hrow]

theorem covMatrix_length (m : List (List ℚ)) : (covMatrix m).length = m.length := by
  simp [covMatrix]

theorem covMatrix_mem_length (m : List (List ℚ)) (row : List ℚ)
    (h : row ∈ covMatrix m) : row.length = m.length := by
  simp only [covMatrix, List.mem_map] at h
  obtain ⟨r, _, hrow⟩ := h
  simp [← hrow]

/-- C1 counterexample: the claim says the covariance matrix built by
`PcaDirections.calculate_covariance_matrix` is quadratic in the trajectory
length `N`.  For the concrete trajectory of `N = 2` centered samples with
`F = 3` parameters each, the matrix has `3` rows, not `2`: it is `F x F`,
quadratic in the parameter count. -/
theorem pca_covariance_quadratic_in_N_counterexample :
    (PcaDirections_calculate_covariance_matrix [[1, 0, 0], [0, 1, 0]]).length ≠
      ([[1, 0, 0], [0, 1, 0]] : List (List ℚ)).length ∧
    (PcaDirections_calculate_covariance_matrix [[1, 0, 0], [0, 1, 0]]).length = 3 := by
  constructor
  · decide
  · decide

/-- Claim C1 (amended): for every non-empty trajectory of `N` centered
samples with `F` parameters each, `PcaDirections.calculate_covariance_matrix`
first materializes the full `F x N` dense stack of the samples
(`stack(samples, dim=1)`) and returns an `F x F` covariance matrix —
quadratic in the parameter count `F`, not in the trajectory length `N`
(as the constructor docstring in the source also warns). -/
theorem pca_covariance_matrix_is_FxF (samples : List (List ℚ)) (F : ℕ)
    (h0 : samples ≠ []) (hF : ∀ s ∈ samples, s.length = F) :
    (stack_dim1 samples).length = F ∧
    (∀ r ∈ stack_dim1 samples, r.length = samples.length) ∧
    (PcaDirections_calculate_covariance_matrix samples).length = F ∧
    (∀ r ∈ PcaDirections_calculate_covariance_matrix samples, r.length = F) := by
  obtain ⟨s, rest, rfl⟩ := List.exists_cons_of_ne_nil h0
  have hs : s.length = F := hF s (by simp)
  have hstack : (stack_dim1 (s :: rest)).length = F := by
    rw [stack_dim1_length]; exact hs
  refine ⟨hstack, fun r hr => stack_dim1_row_length _ r hr, ?_, ?_⟩
  · rw [PcaDirections_calculate_covariance_matrix, covMatrix_length]; exact hstack
  · intro r hr
    have := covMatrix_mem_length (stack_dim1 (s :: rest)) r hr
    rw [this]; exact hstack

/-- Witness for the amended C1 theorem at a concrete trajectory
(`N = 3` samples, `F = 2` parameters). -/
theorem pca_covariance_matrix_is_FxF_witness :
    ([[1, 2], [3, 4], [5, 6]] : List (List ℚ)) ≠ [] ∧
    (∀ s ∈ ([[1, 2], [3, 4], [5, 6]] : List (List ℚ)), s.length = 2) ∧
    ((stack_dim1 [[1, 2], [3, 4], [5, 6]]).length = 2 ∧
      (∀ r ∈ stack_dim1 [[1, 2], [3, 4], [5, 6]],
        r.length = ([[1, 2], [3, 4], [5, 6]] : List (List ℚ)).length) ∧
      (PcaDirections_calculate_covariance_matrix [[1, 2], [3, 4], [5, 6]]).length = 2 ∧
      (∀ r ∈ PcaDirections_calculate_covariance_matrix [[1, 2], [3, 4], [5, 6]],
        r.length = 2)) :=
  ⟨by decide, by decide,
    pca_covariance_matrix_is_FxF [[1, 2], [3, 4], [5, 6]] 2 (by decide) (by decide)⟩

theorem enum_getD_of_mem {l : List ℚ} {p : ℕ × ℚ} (h : p ∈ l.enum) :
    p.1 < l.length ∧ l.getD p.1 0 = p.2 := by
  rw [List.mem_enum_iff_getElem?] at h
  have hlt : p.1 < l.length := (List.getElem?_eq_some.mp h).1
  refine ⟨hlt, ?_⟩
  rw [List.getD_eq_getElem l 0 hlt]
  rw [List.getElem?_eq_getElem hlt] at h
  exact Option.some.inj h

theorem mem_sorted_enum_of_lt {l : List ℚ} {k : ℕ} (hk : k < l.length) :
    (k, l.getD k 0) ∈ List.insertionSort descVal l.enum := by
  rw [(List.perm_insertionSort descVal l.enum).mem_iff, List.mem_enum_iff_getElem?]
  simp only
  rw [List.getElem?_eq_getElem hk, List.getD_eq_getElem l 0 hk]

theorem top2_indices_spec (l : List ℚ) (hlen : 2 ≤ l.length) :
    ∃ i0 i1, i0 < l.length ∧ i1 < l.length ∧ i0 ≠ i1 ∧
      ((List.insertionSort descVal l.enum).getD 0 (0, 0)).1 = i0 ∧
      ((List.insertionSort descVal l.enum).getD 1 (0, 0)).1 = i1 ∧
      (∀ k < l.length, l.getD k 0 ≤ l.getD i0 0) ∧
      (∀ k < l.length, k ≠ i0 → l.getD k 0 ≤ l.getD i1 0) := by
  have hperm : List.Perm (List.insertionSort descVal l.enum) l.enum :=
    List.perm_insertionSort descVal l.enum
  have hsort : List.Sorted descVal (List.insertionSort descVal l.enum) :=
    List.sorted_insertionSort descVal l.enum
  have hslen : (List.insertionSort descVal l.enum).length = l.length := by
    rw [hperm.length_eq, List.enum_length]
  obtain ⟨a, b, t, habt⟩ : ∃ a b t, List.insertionSort descVal l.enum = a :: b :: t := by
    cases h1 : List.insertionSort descVal l.enum with
    | nil => rw [h1] at hslen; simp at hslen; omega
    | cons a r =>
      cases h2 : r with
      | nil => rw [h1, h2] at hslen; simp at hslen; omega
      | cons b t => exact ⟨a, b, t, rfl⟩
  have hsort_abt : List.Sorted descVal (a :: b :: t) := habt ▸ hsort
  have hnodup : ((a :: b :: t).map Prod.fst).Nodup := by
    have hp2 : List.Perm ((a :: b :: t).map Prod.fst) (l.enum.map Prod.fst) := by
      rw [← habt]; exact hperm.map Prod.fst
    rw [hp2.nodup_iff, List.enum_map_fst]
    exact List.nodup_range _
  have hamem : a ∈ l.enum := hperm.subset (by rw [habt]; exact List.mem_cons_self _ _)
  have hbmem : b ∈ l.enum :=
    hperm.subset (by rw [habt]; exact List.mem_cons_of_mem _ (List.mem_cons_self _ _))
  obtain ⟨ha1, ha2⟩ := enum_getD_of_mem hamem
  obtain ⟨hb1, hb2⟩ := enum_getD_of_mem hbmem
  have hab : a.1 ≠ b.1 := by
    intro h
    simp only [List.map_cons, List.nodup_cons, List.mem_cons, not_or] at hnodup
    exact hnodup.1.1 h
  have hmax : ∀ p ∈ b :: t, p.2 ≤ a.2 := fun p hp =>
    List.rel_of_sorted_cons hsort_abt p hp
  have hmax2 : ∀ p ∈ t, p.2 ≤ b.2 := fun p hp =>
    List.rel_of_sorted_cons hsort_abt.of_cons p hp
  refine ⟨a.1, b.1, ha1, hb1, hab, by rw [habt]; rfl, by rw [habt]; rfl, ?_, ?_⟩
  · intro k hk
    have hmem := mem_sorted_enum_of_lt hk
    rw [habt, List.mem_cons, List.mem_cons] at hmem
    rcases hmem with heq | heq | hmem
    · have : l.getD k 0 = a.2 := congrArg Prod.snd heq
      rw [this, ha2]
    · have h2 : l.getD k 0 = b.2 := congrArg Prod.snd heq
      rw [h2, ha2]
      exact hmax b (List.mem_cons_self _ _)
    · rw [ha2]
      exact hmax _ (List.mem_cons_of_mem _ hmem)
  · intro k hk hne
    have hmem := mem_sorted_enum_of_lt hk
    rw [habt, List.mem_cons, List.mem_cons] at hmem
    rcases hmem with heq | heq | hmem
    · exact absurd (congrArg Prod.fst heq) hne
    · have h2 : l.getD k 0 = b.2 := congrArg Prod.snd heq
      rw [h2, hb2]
    · rw [hb2]
      exact hmax2 _ hmem

theorem select_top2_spec (ep : EigenPairs) (hlen : 2 ≤ ep.values.length) :
    ∃ i0 i1,
      i0 < ep.values.length ∧ i1 < ep.values.length ∧ i0 ≠ i1 ∧
      (PcaDirections_select_top2 ep).1 = ep.vectors.getD i0 [] ∧
      (PcaDirections_select_top2 ep).2 = ep.vectors.getD i1 [] ∧
      (∀ k < ep.values.length, ep.values.getD k 0 ≤ ep.values.getD i0 0) ∧
      (∀ k < ep.values.length, k ≠ i0 → ep.values.getD k 0 ≤ ep.values.getD i1 0) := by
  obtain ⟨i0, i1, h0, h1, hne, hidx0, hidx1, hm0, hm1⟩ := top2_indices_spec ep.values hlen
  exact ⟨i0, i1, h0, h1, hne,
    by simp only [PcaDirections_select_top2, hidx0],
    by simp only [PcaDirections_select_top2, hidx1], hm0, hm1⟩

/-- Claim C5: in `PcaDirections`, a covariance matrix of dimension greater
than `6 = 3 * 2` is handed to the iterative `lobpcg` solver (`largest=True`,
`k=2`), otherwise to the dense symmetric `eigh`; and in both cases the
returned directions `b1`, `b2` are the eigenvector columns belonging to the
two largest returned eigenvalues, selected by sorting the eigenvalues in
descending order (given that the solver output consists of eigenpairs of
the matrix, which is the external solver's contract). -/
theorem pca_eigenpair_branch_and_top2_selection
    (lobpcgFn eighFn : List (List ℚ) → EigenPairs) (cov : List (List ℚ))
    (hlen : 2 ≤ (PcaDirections_calculate_eigenpairs lobpcgFn eighFn cov).values.length)
    (hEig : ∀ i < (PcaDirections_calculate_eigenpairs lobpcgFn eighFn cov).values.length,
      isEigenPair cov
        ((PcaDirections_calculate_eigenpairs lobpcgFn eighFn cov).vectors.getD i [])
        ((PcaDirections_calculate_eigenpairs lobpcgFn eighFn cov).values.getD i 0)) :
    (6 < cov.length →
      PcaDirections_calculate_eigenpairs lobpcgFn eighFn cov = lobpcgFn cov) ∧
    (cov.length ≤ 6 →
      PcaDirections_calculate_eigenpairs lobpcgFn eighFn cov = eighFn cov) ∧
    (∃ i0 i1,
      i0 < (PcaDirections_calculate_eigenpairs lobpcgFn eighFn cov).values.length ∧
      i1 < (PcaDirections_calculate_eigenpairs lobpcgFn eighFn cov).values.length ∧
      i0 ≠ i1 ∧
      (∀ k < (PcaDirections_calculate_eigenpairs lobpcgFn eighFn cov).values.length,
        (PcaDirections_calculate_eigenpairs lobpcgFn eighFn cov).values.getD k 0 ≤
          (PcaDirections_calculate_eigenpairs lobpcgFn eighFn cov).values.getD i0 0) ∧
      (∀ k < (PcaDirections_calculate_eigenpairs lobpcgFn eighFn cov).values.length,
        k ≠ i0 →
        (PcaDirections_calculate_eigenpairs lobpcgFn eighFn cov).values.getD k 0 ≤
          (PcaDirections_calculate_eigenpairs lobpcgFn eighFn cov).values.getD i1 0) ∧
      isEigenPair cov
        ((PcaDirections_select_top2 (PcaDirections_calculate_eigenpairs lobpcgFn eighFn cov)).1)
        ((PcaDirections_calculate_eigenpairs lobpcgFn eighFn cov).values.getD i0 0) ∧
      isEigenPair cov
        ((PcaDirections_select_top2 (PcaDirections_calculate_eigenpairs lobpcgFn eighFn cov)).2)
        ((PcaDirections_calculate_eigenpairs lobpcgFn eighFn cov).values.getD i1 0)) := by
  refine ⟨?_, ?_, ?_⟩
  · intro h
    simp only [PcaDirections_calculate_eigenpairs]
    rw [if_pos (by omega)]
  · intro h
    simp only [PcaDirections_calculate_eigenpairs]
    rw [if_neg (by omega)]
  · obtain ⟨i0, i1, h0, h1, hne, hb1, hb2, hm0, hm1⟩ :=
      select_top2_spec (PcaDirections_calculate_eigenpairs lobpcgFn eighFn cov) hlen
    refine ⟨i0, i1, h0, h1, hne, hm0, hm1, ?_, ?_⟩
    · rw [hb1]
      exact hEig i0 h0
    · rw [hb2]
      exact hEig i1 h1

/-- Witness for the C5 theorem at the concrete matrix `covW` with the
concrete solver `eighW`. -/
theorem pca_eigenpair_branch_and_top2_selection_witness :
    2 ≤ epW.values.length ∧
    (∀ i < epW.values.length,
      isEigenPair covW (epW.vectors.getD i []) (epW.values.getD i 0)) ∧
    ((6 < covW.length → PcaDirections_calculate_eigenpairs lobpcgW eighW covW = lobpcgW covW) ∧
      (covW.length ≤ 6 → PcaDirections_calculate_eigenpairs lobpcgW eighW covW = eighW covW) ∧
      (∃ i0 i1,
        i0 < epW.values.length ∧
        i1 < epW.values.length ∧
        i0 ≠ i1 ∧
        (∀ k < epW.values.length, epW.values.getD k 0 ≤ epW.values.getD i0 0) ∧
        (∀ k < epW.values.length, k ≠ i0 →
          epW.values.getD k 0 ≤ epW.values.getD i1 0) ∧
        isEigenPair covW ((PcaDirections_select_top2 epW).1) (epW.values.getD i0 0) ∧
        isEigenPair covW ((PcaDirections_select_top2 epW).2) (epW.values.getD i1 0))) :=
  ⟨by decide, by
    intro i hi
    have hep : epW = EigenPairs.mk [1, 2] [[0, 1], [1, 0]] := rfl
    rw [hep] at hi ⊢
    simp only [List.length_cons, List.length_nil] at hi
    interval_cases i
    · exact ⟨⟨1, by simp, by simp⟩, by simp [matVec, dotL, covW]⟩
    · exact ⟨⟨1, by simp, by simp⟩, by simp [matVec, dotL, covW]⟩,
    pca_eigenpair_branch_and_top2_selection lobpcgW eighW covW (by decide) (by
      intro i hi
      have hep : PcaDirections_calculate_eigenpairs lobpcgW eighW covW =
          EigenPairs.mk [1, 2] [[0, 1], [1, 0]] := rfl
      rw [hep] at hi ⊢
      simp only [List.length_cons, List.length_nil] at hi
      interval_cases i
      · exact ⟨⟨1, by simp, by simp⟩, by simp [matVec, dotL, covW]⟩
      · exact ⟨⟨1, by simp, by simp⟩, by simp [matVec, dotL, covW]⟩)⟩

theorem sumSq_map_mul (xs : List ℝ) (s : ℝ) :
    ((xs.map (fun x => x * s)).map (fun x => x * x)).sum =
      ((xs.map (fun x => x * x)).sum) * (s * s) := by
  induction xs with
  | nil => simp
  | cons x t ih =>
    simp only [List.map_cons, List.sum_cons, ih]
    ring

theorem sumSq_nonneg (xs : List ℝ) : 0 ≤ (xs.map (fun x => x * x)).sum := by
  induction xs with
  | nil => simp
  | cons x t ih =>
    simp only [List.map_cons, List.sum_cons]
    have := mul_self_nonneg x
    linarith

theorem l2norm_nonneg (xs : List ℝ) : 0 ≤ l2norm xs := Real.sqrt_nonneg _

theorem l2norm_map_mul (xs : List ℝ) (s : ℝ) (hs : 0 ≤ s) :
    l2norm (xs.map (fun x => x * s)) = l2norm xs * s := by
  unfold l2norm
  rw [sumSq_map_mul, Real.sqrt_mul (sumSq_nonneg xs), Real.sqrt_mul_self hs]

theorem normEps_pos : 0 < normEps := by
  unfold normEps
  norm_num

theorem scaling_factor_nonneg (ds ps : List ℝ) :
    0 ≤ l2norm ps / (l2norm ds + normEps) :=
  div_nonneg (l2norm_nonneg ps) (le_of_lt (lt_of_lt_of_le normEps_pos
    (le_add_of_nonneg_left (l2norm_nonneg ds))))

/-- C2 counterexample: the claim promises the normalized slice norm equals
the parameter slice norm up to the `1e-10` tolerance.  For the 1-D
direction `[0]` (zero norm) against parameters `[1]`, the normalized
direction keeps norm `0` while the parameter norm is `1`, a gap far above
the tolerance. -/
theorem normalize_epsilon_tolerance_counterexample :
    ∃ ds2, normalize_direction (.t1 [0]) (.t1 [1]) = .t1 ds2 ∧
      ¬ |l2norm ds2 - l2norm [1]| ≤ normEps := by
  refine ⟨_, rfl, ?_⟩
  simp only [List.map_cons, List.map_nil, zero_mul]
  have h2 : l2norm [(0 : ℝ)] = 0 := by simp [l2norm]
  have h1 : l2norm [(1 : ℝ)] = 1 := by simp [l2norm]
  rw [h2, h1, normEps]
  rw [zero_sub, abs_neg, abs_one]
  norm_num

/-- Claim C2 (amended): after `normalize_direction(D, P)` on 1-D or 2-D
tensors of matching shape, each slice of `D` (the whole tensor for 1-D
input, each row for 2-D input) has norm
`‖P_slice‖ * ‖D_slice‖ / (‖D_slice‖ + 1e-10)` — which is `‖P_slice‖` only
up to the relative distortion introduced by the epsilon guard (a zero-norm
slice, for instance, keeps norm `0`), not within an absolute `1e-10`
tolerance in general. -/
theorem normalize_direction_slice_norm_formula (ds ps : List ℝ)
    (dss pss : List (List ℝ)) (hlen : dss.length = pss.length) :
    (∃ ds2, normalize_direction (.t1 ds) (.t1 ps) = .t1 ds2 ∧
      l2norm ds2 = l2norm ps * l2norm ds / (l2norm ds + normEps)) ∧
    (∃ dss2, normalize_direction (.t2 dss) (.t2 pss) = .t2 dss2 ∧
      dss2.length = dss.length ∧
      ∀ i, i < dss.length →
        l2norm (dss2.getD i []) =
          l2norm (pss.getD i []) * l2norm (dss.getD i []) /
            (l2norm (dss.getD i []) + normEps)) := by
  constructor
  · refine ⟨_, rfl, ?_⟩
    rw [l2norm_map_mul _ _ (scaling_factor_nonneg ds ps), mul_comm, div_mul_eq_mul_div]
  · refine ⟨_, rfl, ?_, ?_⟩
    · rw [List.length_zipWith, hlen, min_self]
    · intro i hi
      have hi2 : i < pss.length := hlen ▸ hi
      have hiz : i < (List.zipWith
          (fun dr pr => dr.map (fun x => x * (l2norm pr / (l2norm dr + normEps))))
          dss pss).length := by
        rw [List.length_zipWith, hlen, min_self]
        exact hlen ▸ hi
      rw [List.getD_eq_getElem _ _ hiz, List.getElem_zipWith,
        List.getD_eq_getElem _ _ hi, List.getD_eq_getElem _ _ hi2,
        l2norm_map_mul _ _ (scaling_factor_nonneg _ _), mul_comm, div_mul_eq_mul_div]

/-- Witness for the amended C2 theorem at concrete tensors
(`D = [3, 4]`, `P = [5]` for 1-D; `D = [[1]]`, `P = [[2]]` for 2-D). -/
theorem normalize_direction_slice_norm_formula_witness :
    ([[(1 : ℝ)]] : List (List ℝ)).length = ([[(2 : ℝ)]] : List (List ℝ)).length ∧
    ((∃ ds2, normalize_direction (.t1 [3, 4]) (.t1 [5]) = .t1 ds2 ∧
      l2norm ds2 = l2norm [5] * l2norm [3, 4] / (l2norm [3, 4] + normEps)) ∧
    (∃ dss2, normalize_direction (.t2 [[1]]) (.t2 [[2]]) = .t2 dss2 ∧
      dss2.length = ([[(1 : ℝ)]] : List (List ℝ)).length ∧
      ∀ i, i < ([[(1 : ℝ)]] : List (List ℝ)).length →
        l2norm (dss2.getD i []) =
          l2norm (([[(2 : ℝ)]] : List (List ℝ)).getD i []) *
            l2norm (([[(1 : ℝ)]] : List (List ℝ)).getD i []) /
            (l2norm (([[(1 : ℝ)]] : List (List ℝ)).getD i []) + normEps))) :=
  ⟨rfl, normalize_direction_slice_norm_formula [3, 4] [5] [[1]] [[2]] rfl⟩

/-- Claim C8: `normalize_direction` completes on every direction tensor,
a zero-norm one included: the division's denominator `‖D‖ + 1e-10` is
strictly positive for every direction slice, and an all-zero direction is
returned unchanged (silently), never surfaced as an error. -/
theorem normalize_direction_zero_norm_guard (ds ps : List ℝ) (n : ℕ) :
    0 < l2norm ds + normEps ∧
    normalize_direction (.t1 (List.replicate n 0)) (.t1 ps) =
      .t1 (List.replicate n 0) := by
  constructor
  · exact lt_of_lt_of_le normEps_pos (le_add_of_nonneg_left (l2norm_nonneg ds))
  · simp [normalize_direction, List.map_replicate]

theorem bestIdx_le (losses : ℕ → ℚ) : ∀ k, bestIdx losses k ≤ k := by
  intro k
  induction k with
  | zero => exact le_refl 0
  | succ k ih =>
    unfold bestIdx
    split
    · exact le_refl _
    · omega

theorem bestIdx_min (losses : ℕ → ℚ) :
    ∀ k, ∀ i ≤ k, losses (bestIdx losses k) ≤ losses i := by
  intro k
  induction k with
  | zero =>
    intro i hi
    have : i = 0 := Nat.le_zero.mp hi
    rw [this]
    exact le_refl _
  | succ k ih =>
    intro i hi
    unfold bestIdx
    split
    · rename_i hlt
      rcases Nat.eq_or_lt_of_le hi with rfl | hi2
      · exact le_refl _
      · exact le_trans (le_of_lt hlt) (ih i (by omega))
    · rename_i hge
      rcases Nat.eq_or_lt_of_le hi with rfl | hi2
      · exact le_of_not_lt hge
      · exact ih i (by omega)

theorem stateUpTo_fin {σ : Type} (losses : ℕ → ℚ) (states : ℕ → σ) :
    ∀ k, stateUpTo (fun i => FloatVal.fin (losses i)) states (k + 1) =
      ⟨bestIdx losses k, FloatVal.fin (losses (bestIdx losses k)),
        some (states (bestIdx losses k))⟩ := by
  intro k
  induction k with
  | zero =>
    show trainStep _ _ 0 ⟨0, .inf, none⟩ = _
    simp [trainStep, fvLt, bestIdx]
  | succ k ih =>
    show trainStep _ _ (k + 1) (stateUpTo _ _ (k + 1)) = _
    rw [ih]
    by_cases h : losses (k + 1) < losses (bestIdx losses k)
    · simp [trainStep, fvLt, h, bestIdx]
    · simp [trainStep, fvLt, h, bestIdx]

theorem trainEpochs_spec {σ : Type} (losses : ℕ → FloatVal) (states : ℕ → σ)
    (patience : ℕ) :
    ∀ (r e : ℕ), ∃ n,
      trainEpochs losses states patience e r (stateUpTo losses states e) =
        (n, stateUpTo losses states n) ∧
      e ≤ n ∧ n ≤ e + r ∧ (0 < r → e < n) ∧
      (∀ j, e ≤ j → j + 1 < n →
        j - (stateUpTo losses states (j + 1)).bestEpoch < patience) ∧
      (n < e + r → patience ≤ (n - 1) - (stateUpTo losses states n).bestEpoch) := by
  intro r
  induction r with
  | zero =>
    intro e
    refine ⟨e, rfl, le_refl e, by omega, by omega, ?_, by omega⟩
    intro j hj hj2
    omega
  | succ r ih =>
    intro e
    obtain ⟨n, heq, h1, h2, h3, h4, h5⟩ := ih (e + 1)
    have hdef : stateUpTo losses states (e + 1) =
        trainStep losses states e (stateUpTo losses states e) := rfl
    by_cases hbr : patience ≤
        e - (trainStep losses states e (stateUpTo losses states e)).bestEpoch
    · refine ⟨e + 1, ?_, by omega, by omega, by omega, ?_, ?_⟩
      · show (if patience ≤
            e - (trainStep losses states e (stateUpTo losses states e)).bestEpoch then
            (e + 1, trainStep losses states e (stateUpTo losses states e))
          else trainEpochs losses states patience (e + 1) r
            (trainStep losses states e (stateUpTo losses states e))) =
          (e + 1, stateUpTo losses states (e + 1))
        rw [if_pos hbr, hdef]
      · intro j hj hj2
        omega
      · intro _
        rw [hdef]
        simpa using hbr
    · refine ⟨n, ?_, by omega, by omega, by omega, ?_, ?_⟩
      · show (if patience ≤
            e - (trainStep losses states e (stateUpTo losses states e)).bestEpoch then
            (e + 1, trainStep losses states e (stateUpTo losses states e))
          else trainEpochs losses states patience (e + 1) r
            (trainStep losses states e (stateUpTo losses states e))) =
          (n, stateUpTo losses states n)
        rw [if_neg hbr, ← hdef]
        exact heq
      · intro j hj hjn
        rcases Nat.eq_or_lt_of_le hj with rfl | hj2
        · rw [hdef]
          omega
        · exact h4 j (by omega) hjn
      · intro hlt
        exact h5 (by omega)

/-- Claim C3: in both learnable-direction training loops with finite
(comparable) epoch losses, the loop runs at least one and at most
`training_epochs` epochs, stops as soon as
`epoch - best_epoch ≥ early_stopping_epochs` (it never continues past an
epoch where that held, and an early halt happens only because it held), and
the state returned is the checkpoint of the (first) lowest-loss epoch
among the executed ones — not the final epoch's weights. -/
theorem learnable_training_early_stop_and_best_checkpoint {σ : Type}
    (losses : ℕ → ℚ) (states : ℕ → σ) (patience epochs : ℕ) (h : 1 ≤ epochs) :
    ∃ n s,
      LearnableDirections_trainLoop (fun i => FloatVal.fin (losses i))
        states patience epochs = (n, s) ∧
      LearnableNonlinearDirections_trainLoop (fun i => FloatVal.fin (losses i))
        states patience epochs = (n, s) ∧
      1 ≤ n ∧ n ≤ epochs ∧
      s.bestState = some (states (bestIdx losses (n - 1))) ∧
      (∀ i ≤ n - 1, losses (bestIdx losses (n - 1)) ≤ losses i) ∧
      (∀ j, j + 1 < n → j - bestIdx losses j < patience) ∧
      (n < epochs → patience ≤ (n - 1) - bestIdx losses (n - 1)) ∧
      (∀ j, patience ≤ j - bestIdx losses j → n ≤ j + 1) := by
  obtain ⟨n, heq, h1, h2, h3, h4, h5⟩ :=
    trainEpochs_spec (fun i => FloatVal.fin (losses i)) states patience epochs 0
  have hn1 : 1 ≤ n := h3 (by omega)
  have hrw : ∀ j : ℕ,
      (stateUpTo (fun i => FloatVal.fin (losses i)) states (j + 1)).bestEpoch =
        bestIdx losses j := by
    intro j
    rw [stateUpTo_fin]
  have hnm : n - 1 + 1 = n := by omega
  refine ⟨n, stateUpTo (fun i => FloatVal.fin (losses i)) states n,
    heq, heq, hn1, by omega, ?_, ?_, ?_, ?_, ?_⟩
  · rw [← hnm, stateUpTo_fin]
    simp
  · exact bestIdx_min losses (n - 1)
  · intro j hj
    have := h4 j (by omega) hj
    rw [hrw j] at this
    exact this
  · intro hlt
    have := h5 (by omega)
    rw [← hnm, hrw (n - 1)] at this
    rw [hnm] at this
    exact this
  · intro j hj
    by_contra hcon
    have hjn : j + 1 < n := by omega
    have := h4 j (by omega) hjn
    rw [hrw j] at this
    omega

/-- Witness for the C3 theorem: strictly increasing losses `0, 1, 2, ...`
with patience `1` and `training_epochs = 3` (the loop stops after two
epochs and returns the epoch-0 checkpoint). -/
theorem learnable_training_early_stop_witness :
    1 ≤ 3 ∧
    (∃ n s,
      LearnableDirections_trainLoop (fun i => FloatVal.fin ((fun i => (i : ℚ)) i))
        (fun i => i) 1 3 = (n, s) ∧
      LearnableNonlinearDirections_trainLoop (fun i => FloatVal.fin ((fun i => (i : ℚ)) i))
        (fun i => i) 1 3 = (n, s) ∧
      1 ≤ n ∧ n ≤ 3 ∧
      s.bestState = some ((fun i => i) (bestIdx (fun i => (i : ℚ)) (n - 1))) ∧
      (∀ i ≤ n - 1, (fun i => (i : ℚ)) (bestIdx (fun i => (i : ℚ)) (n - 1)) ≤
        (fun i => (i : ℚ)) i) ∧
      (∀ j, j + 1 < n → j - bestIdx (fun i => (i : ℚ)) j < 1) ∧
      (n < 3 → 1 ≤ (n - 1) - bestIdx (fun i => (i : ℚ)) (n - 1)) ∧
      (∀ j, 1 ≤ j - bestIdx (fun i => (i : ℚ)) j → n ≤ j + 1)) :=
  ⟨by decide,
    learnable_training_early_stop_and_best_checkpoint
      (fun i => (i : ℚ)) (fun i => i) 1 3 (by decide)⟩

theorem noComparable_stateUpTo {σ : Type} (losses : ℕ → FloatVal) (states : ℕ → σ) :
    ∀ k, (∀ i < k, fvLt (losses i) FloatVal.inf = false) →
      stateUpTo losses states k = ⟨0, FloatVal.inf, none⟩ := by
  intro k
  induction k with
  | zero => intro _; rfl
  | succ k ih =>
    intro hk
    show trainStep losses states k (stateUpTo losses states k) = _
    rw [ih (fun i hi => hk i (by omega))]
    simp [trainStep, hk k (Nat.lt_succ_self k)]

/-- Claim C10: the final `load_state_dict` call in both learnable-direction
builders fails whenever no executed epoch records a loss that compares
below the running best (initially `float("inf")`): with
`training_epochs = 0`, or when every epoch's loss is `nan` (or `inf`),
`best_model_state_dict` stays `None` and the reload step errors. -/
theorem learnable_training_load_fails_without_comparable_loss {σ : Type}
    (losses : ℕ → FloatVal) (states : ℕ → σ) (patience epochs : ℕ)
    (h : ∀ i < epochs, fvLt (losses i) FloatVal.inf = false) :
    LearnableDirections_trainResult losses states patience epochs =
      Except.error DirErr.loadNoneStateDict ∧
    LearnableNonlinearDirections_trainResult losses states patience epochs =
      Except.error DirErr.loadNoneStateDict := by
  obtain ⟨n, heq, h1, h2, h3, h4, h5⟩ := trainEpochs_spec losses states patience epochs 0
  have hstate : stateUpTo losses states n = ⟨0, FloatVal.inf, none⟩ :=
    noComparable_stateUpTo losses states n (fun i hi => h i (by omega))
  have hres : trainLoop losses states patience epochs = (n, ⟨0, FloatVal.inf, none⟩) := by
    rw [← hstate]
    exact heq
  constructor
  · show load_state_dict
      (LearnableDirections_trainLoop losses states patience epochs).2.bestState = _
    show load_state_dict (trainLoop losses states patience epochs).2.bestState = _
    rw [hres]
    rfl
  · show load_state_dict
      (LearnableNonlinearDirections_trainLoop losses states patience epochs).2.bestState = _
    show load_state_dict (trainLoop losses states patience epochs).2.bestState = _
    rw [hres]
    rfl

/-- Witness for the C10 theorem: two epochs whose losses are both `nan`
(and, through `epochs = 0` being allowed by the hypothesis, the
zero-epoch case is covered by the same theorem). -/
theorem learnable_training_load_fails_witness :
    (∀ i < 2, fvLt ((fun _ => FloatVal.nan) i) FloatVal.inf = false) ∧
    (LearnableDirections_trainResult (fun _ => FloatVal.nan) (fun i => i) 250 2 =
      Except.error DirErr.loadNoneStateDict ∧
    LearnableNonlinearDirections_trainResult (fun _ => FloatVal.nan) (fun i => i) 250 2 =
      Except.error DirErr.loadNoneStateDict) :=
  ⟨by decide,
    learnable_training_load_fails_without_comparable_loss
      (fun _ => FloatVal.nan) (fun i => i) 250 2 (by decide)⟩

/-- C4 counterexample: with a one-snapshot trajectory, one intermediate
basis size and three layers (a mismatch, `1 ≠ 3 - 1`), the linear
learnable builder does fail with the precondition error, but its trace
already contains the trajectory tensor computation: the failure is not
raised before tensor computation on the trajectory, contradicting the
claim for this builder. -/
theorem learnable_basis_mismatch_counterexample :
    (LearnableDirections_run 1 1 3).2 = some DirErr.basisCountMismatch ∧
    (LearnableDirections_run 1 1 3).1 = [Ev.trajComputation] ∧
    (LearnableDirections_run 1 1 3).1 ≠ [] := by
  refine ⟨?_, ?_, ?_⟩ <;> decide

/-- Claim C4 (amended): for every call to a learnable-direction builder
with a non-empty trajectory and
`len(intermediate_basis_count) ≠ number_of_layers - 1`, the computation
fails with a precondition error: the nonlinear variant validates up front,
before any tensor computation on the trajectory, while the linear variant
raises only while constructing the autoencoder, after the trajectory has
been flattened and stacked. -/
theorem learnable_basis_mismatch_validation (trajLen basisLen numLayers : ℕ)
    (h0 : trajLen ≠ 0) (hmis : (basisLen : ℤ) ≠ (numLayers : ℤ) - 1) :
    LearnableNonlinearDirections_run trajLen basisLen numLayers =
      ([], some DirErr.basisCountMismatch) ∧
    LearnableDirections_run trajLen basisLen numLayers =
      ([Ev.trajComputation], some DirErr.basisCountMismatch) := by
  constructor
  · simp [LearnableNonlinearDirections_run, h0, hmis]
  · simp [LearnableDirections_run, h0, hmis]

/-- Witness for the amended C4 theorem (`trajectory length 1`,
`len(intermediate_basis_count) = 0`, `number_of_layers = 3`). -/
theorem learnable_basis_mismatch_validation_witness :
    (1 : ℕ) ≠ 0 ∧ ((0 : ℕ) : ℤ) ≠ ((3 : ℕ) : ℤ) - 1 ∧
    (LearnableNonlinearDirections_run 1 0 3 =
      ([], some DirErr.basisCountMismatch) ∧
    LearnableDirections_run 1 0 3 =
      ([Ev.trajComputation], some DirErr.basisCountMismatch)) :=
  ⟨by decide, by decide, learnable_basis_mismatch_validation 1 0 3 (by decide) (by decide)⟩

theorem vector_to_parameters_shapes (v : List ℚ) (ps : List PTensor) :
    (vector_to_parameters v ps).map PTensor.shape = ps.map PTensor.shape := by
  induction ps generalizing v with
  | nil => rfl
  | cons p rest ih => simp [vector_to_parameters, ih]

/-- Claim C6: for every non-empty trajectory, `SvdDirections` stacks the
centered snapshot vectors (each snapshot minus the optimized-parameter
vector) as the rows of a matrix cast to `float32`, hands it to
`svd_lowrank` with rank 2, returns the first two columns of `V` (the top
two right-singular vectors) as `b1`, `b2`, and reshapes each into a
parameter set with the same shapes as the optimized parameters. -/
theorem svd_directions_pipeline
    (svdLowrankFn : TMat → SvdResult) (dt : DType)
    (optimized : List PTensor) (inter : List (List PTensor))
    (h0 : inter.length ≠ 0) :
    (SvdDirections_create_learnable_directions svdLowrankFn dt inter optimized =
      Except.ok
        (column (svdLowrankFn ⟨DType.float32,
          inter.map (fun result => listSub (parameters_to_vector result)
            (parameters_to_vector optimized))⟩).V 0,
         column (svdLowrankFn ⟨DType.float32,
          inter.map (fun result => listSub (parameters_to_vector result)
            (parameters_to_vector optimized))⟩).V 1)) ∧
    ((stackRows dt (inter.map (fun result => listSub (parameters_to_vector result)
        (parameters_to_vector optimized)))).to DType.float32).dtype = DType.float32 ∧
    (∃ ps1 ps2,
      SvdDirections_calculate_directions svdLowrankFn dt optimized inter =
        Except.ok (ps1, ps2) ∧
      ps1.map PTensor.shape = optimized.map PTensor.shape ∧
      ps2.map PTensor.shape = optimized.map PTensor.shape) := by
  have hcreate : SvdDirections_create_learnable_directions svdLowrankFn dt inter optimized =
      Except.ok
        (column (svdLowrankFn ⟨DType.float32,
          inter.map (fun result => listSub (parameters_to_vector result)
            (parameters_to_vector optimized))⟩).V 0,
         column (svdLowrankFn ⟨DType.float32,
          inter.map (fun result => listSub (parameters_to_vector result)
            (parameters_to_vector optimized))⟩).V 1) := by
    rw [SvdDirections_create_learnable_directions, if_neg h0]
    rfl
  have hcalc : SvdDirections_calculate_directions svdLowrankFn dt optimized inter =
      Except.ok
        (vector_to_parameters
          (column (svdLowrankFn ⟨DType.float32,
            inter.map (fun result => listSub (parameters_to_vector result)
              (parameters_to_vector optimized))⟩).V 0) (clone_parameters optimized),
         vector_to_parameters
          (column (svdLowrankFn ⟨DType.float32,
            inter.map (fun result => listSub (parameters_to_vector result)
              (parameters_to_vector optimized))⟩).V 1) (clone_parameters optimized)) := by
    unfold SvdDirections_calculate_directions
    rw [hcreate]
  exact ⟨hcreate, rfl, _, _, hcalc,
    vector_to_parameters_shapes _ optimized, vector_to_parameters_shapes _ optimized⟩

/-- Witness for the C6 theorem at the concrete one-snapshot trajectory. -/
theorem svd_directions_pipeline_witness :
    interW.length ≠ 0 ∧
    ((SvdDirections_create_learnable_directions svdW DType.float64 interW optW =
      Except.ok
        (column (svdW ⟨DType.float32,
          interW.map (fun result => listSub (parameters_to_vector result)
            (parameters_to_vector optW))⟩).V 0,
         column (svdW ⟨DType.float32,
          interW.map (fun result => listSub (parameters_to_vector result)
            (parameters_to_vector optW))⟩).V 1)) ∧
    ((stackRows DType.float64 (interW.map (fun result => listSub (parameters_to_vector result)
        (parameters_to_vector optW)))).to DType.float32).dtype = DType.float32 ∧
    (∃ ps1 ps2,
      SvdDirections_calculate_directions svdW DType.float64 optW interW =
        Except.ok (ps1, ps2) ∧
      ps1.map PTensor.shape = optW.map PTensor.shape ∧
      ps2.map PTensor.shape = optW.map PTensor.shape)) :=
  ⟨by decide, svd_directions_pipeline svdW DType.float64 optW interW (by decide)⟩

/-- Claim C7: each of the four trajectory-consuming builders rejects an
empty trajectory immediately at construction, returning the precondition
error to the caller (the constructors perform no tensor computation before
this check, and there is no retry path). -/
theorem builders_reject_empty_trajectory (optimized : List PTensor)
    (inter : TrajInput) (dev : Device) (nl : ℕ) (lr : ℚ) (te ese : ℕ)
    (ibc : List ℕ) (act : ℚ → ℚ) (h : inter.len = 0) :
    PcaDirections_init optimized inter dev =
      Except.error DirErr.emptyIntermediateParameters ∧
    SvdDirections_init optimized inter =
      Except.error DirErr.emptyIntermediateParameters ∧
    LearnableDirections_init optimized inter dev nl lr te ese ibc act =
      Except.error DirErr.emptyIntermediateParameters ∧
    LearnableNonlinearDirections_init optimized inter dev nl lr te ese ibc act =
      Except.error DirErr.emptyIntermediateParameters := by
  refine ⟨?_, ?_, ?_, ?_⟩ <;>
    simp [PcaDirections_init, SvdDirections_init, LearnableDirections_init,
      LearnableNonlinearDirections_init, h]

/-- Witness for the C7 theorem at the empty plain trajectory. -/
theorem builders_reject_empty_trajectory_witness :
    (TrajInput.plain []).len = 0 ∧
    (PcaDirections_init [] (TrajInput.plain []) Device.cpu =
      Except.error DirErr.emptyIntermediateParameters ∧
    SvdDirections_init [] (TrajInput.plain []) =
      Except.error DirErr.emptyIntermediateParameters ∧
    LearnableDirections_init [] (TrajInput.plain []) Device.cpu 3 1 1000 250 [64, 32]
      (fun q => q) = Except.error DirErr.emptyIntermediateParameters ∧
    LearnableNonlinearDirections_init [] (TrajInput.plain []) Device.cpu 3 1 1000 250
      [64, 32] (fun q => q) = Except.error DirErr.emptyIntermediateParameters) :=
  ⟨rfl, builders_reject_empty_trajectory [] (TrajInput.plain []) Device.cpu 3 1 1000 250
    [64, 32] (fun q => q) rfl⟩

theorem trajInput_withLoss_len (ps : List (List PTensor)) (ls : List ℚ)
    (h : ps.length ≤ ls.length) :
    (TrajInput.withLoss (ps.zip ls)).len = ps.length := by
  simp [TrajInput.len, List.length_zip]
  omega

theorem trajInput_withLoss_strip (ps : List (List PTensor)) (ls : List ℚ)
    (h : ps.length ≤ ls.length) :
    (TrajInput.withLoss (ps.zip ls)).strip = ps := by
  simp only [TrajInput.strip]
  exact List.map_fst_zip ps ls h

/-- Claim C9: supplying a trajectory as (parameters, loss) pairs yields the
same constructed builder state as supplying only the parameter halves, for
all four trajectory-consuming builders; in particular two runs differing
only in the loss values agree (noninterference of losses), and any
downstream direction computation from the state — exemplified by the SVD
pipeline — is unchanged. -/
theorem builders_discard_losses (optimized : List PTensor)
    (ps : List (List PTensor)) (ls1 ls2 : List ℚ) (dev : Device) (nl : ℕ) (lr : ℚ)
    (te ese : ℕ) (ibc : List ℕ) (act : ℚ → ℚ)
    (svdLowrankFn : TMat → SvdResult) (dt : DType)
    (h1 : ps.length ≤ ls1.length) (h2 : ps.length ≤ ls2.length) :
    (PcaDirections_init optimized (.withLoss (ps.zip ls1)) dev =
      PcaDirections_init optimized (.plain ps) dev) ∧
    (PcaDirections_init optimized (.withLoss (ps.zip ls1)) dev =
      PcaDirections_init optimized (.withLoss (ps.zip ls2)) dev) ∧
    (SvdDirections_init optimized (.withLoss (ps.zip ls1)) =
      SvdDirections_init optimized (.plain ps)) ∧
    (SvdDirections_init optimized (.withLoss (ps.zip ls1)) =
      SvdDirections_init optimized (.withLoss (ps.zip ls2))) ∧
    (LearnableDirections_init optimized (.withLoss (ps.zip ls1)) dev nl lr te ese ibc act =
      LearnableDirections_init optimized (.plain ps) dev nl lr te ese ibc act) ∧
    (LearnableDirections_init optimized (.withLoss (ps.zip ls1)) dev nl lr te ese ibc act =
      LearnableDirections_init optimized (.withLoss (ps.zip ls2)) dev nl lr te ese ibc act) ∧
    (LearnableNonlinearDirections_init optimized (.withLoss (ps.zip ls1)) dev nl lr te ese
        ibc act =
      LearnableNonlinearDirections_init optimized (.plain ps) dev nl lr te ese ibc act) ∧
    (LearnableNonlinearDirections_init optimized (.withLoss (ps.zip ls1)) dev nl lr te ese
        ibc act =
      LearnableNonlinearDirections_init optimized (.withLoss (ps.zip ls2)) dev nl lr te ese
        ibc act) ∧
    ((SvdDirections_init optimized (.withLoss (ps.zip ls1))).bind
        (SvdDirections_calculate_directions_state svdLowrankFn dt) =
      (SvdDirections_init optimized (.plain ps)).bind
        (SvdDirections_calculate_directions_state svdLowrankFn dt)) := by
  have hlen1 : (ps.zip ls1).length = ps.length := by
    rw [List.length_zip]; omega
  have hlen2 : (ps.zip ls2).length = ps.length := by
    rw [List.length_zip]; omega
  have hmap1 : List.map Prod.fst (ps.zip ls1) = ps := List.map_fst_zip ps ls1 h1
  have hmap2 : List.map Prod.fst (ps.zip ls2) = ps := List.map_fst_zip ps ls2 h2
  refine ⟨?_, ?_, ?_, ?_, ?_, ?_, ?_, ?_, ?_⟩ <;>
    simp only [PcaDirections_init, SvdDirections_init, LearnableDirections_init,
      LearnableNonlinearDirections_init, TrajInput.len, TrajInput.strip,
      hlen1, hlen2, hmap1, hmap2]

/-- Witness for the C9 theorem at the concrete trajectory `psW` with loss
lists `[1]` and `[2]`. -/
theorem builders_discard_losses_witness :
    psW.length ≤ ([1] : List ℚ).length ∧ psW.length ≤ ([2] : List ℚ).length ∧
    ((PcaDirections_init [] (.withLoss (psW.zip [1])) Device.cpu =
      PcaDirections_init [] (.plain psW) Device.cpu) ∧
    (PcaDirections_init [] (.withLoss (psW.zip [1])) Device.cpu =
      PcaDirections_init [] (.withLoss (psW.zip [2])) Device.cpu) ∧
    (SvdDirections_init [] (.withLoss (psW.zip [1])) =
      SvdDirections_init [] (.plain psW)) ∧
    (SvdDirections_init [] (.withLoss (psW.zip [1])) =
      SvdDirections_init [] (.withLoss (psW.zip [2]))) ∧
    (LearnableDirections_init [] (.withLoss (psW.zip [1])) Device.cpu 3 1 1000 250 [64, 32]
        (fun q => q) =
      LearnableDirections_init [] (.plain psW) Device.cpu 3 1 1000 250 [64, 32]
        (fun q => q)) ∧
    (LearnableDirections_init [] (.withLoss (psW.zip [1])) Device.cpu 3 1 1000 250 [64, 32]
        (fun q => q) =
      LearnableDirections_init [] (.withLoss (psW.zip [2])) Device.cpu 3 1 1000 250 [64, 32]
        (fun q => q)) ∧
    (LearnableNonlinearDirections_init [] (.withLoss (psW.zip [1])) Device.cpu 3 1 1000 250
        [64, 32] (fun q => q) =
      LearnableNonlinearDirections_init [] (.plain psW) Device.cpu 3 1 1000 250 [64, 32]
        (fun q => q)) ∧
    (LearnableNonlinearDirections_init [] (.withLoss (psW.zip [1])) Device.cpu 3 1 1000 250
        [64, 32] (fun q => q) =
      LearnableNonlinearDirections_init [] (.withLoss (psW.zip [2])) Device.cpu 3 1 1000 250
        [64, 32] (fun q => q)) ∧
    ((SvdDirections_init [] (.withLoss (psW.zip [1]))).bind
        (SvdDirections_calculate_directions_state svdW DType.float32) =
      (SvdDirections_init [] (.plain psW)).bind
        (SvdDirections_calculate_directions_state svdW DType.float32))) :=
  ⟨by decide, by decide,
    builders_discard_losses [] psW [1] [2] Device.cpu 3 1 1000 250 [64, 32]
      (fun q => q) svdW DType.float32 (by decide) (by decide)⟩
